import Mathlib

/-!
Shallow embedding of the segment-selection and scoring pipeline of
`backend/app/reliable_clipper.py` (class `ReliableIntelligentClipper`).

Times are modelled as exact rationals (Python floats idealized), Python's
`random.randint(a, b)` as `randint a b seed` which can reach every integer of
`[a, b]` and no other, `random.choice(l)` as `pychoice l seed`, and the drawn
values of `random.uniform` as explicit parameters.  The external OpenRouter
HTTP response is a passed-in value and `json.loads` is an oracle parameter
`parse : String → Option ORAnalysis`; the regex search `\x7b.*\x7d` (greedy,
DOTALL) used to extract a JSON object is implemented concretely as
`find_json`.
-/

/-- Truncation toward zero, the behaviour of Python's `int()` on a float. -/
def pytrunc (q : ℚ) : ℤ := if 0 ≤ q then ⌊q⌋ else ⌈q⌉

/-- Python's `random.randint a b`: the seed model reaches exactly the
integers of `[a, b]` (when `a ≤ b`). -/
def randint (a b : ℤ) (seed : ℕ) : ℤ := a + (seed : ℤ) % (b - a + 1)

/-- Python's `random.choice` on a list of strings, seed model. -/
def pychoice (l : List String) (seed : ℕ) : String := l.getD (seed % l.length) ""

/-- Python's `str.strip()` (leading and trailing whitespace removed). -/
def pystrip (s : String) : String :=
  String.mk (((s.data.dropWhile Char.isWhitespace).reverse.dropWhile Char.isWhitespace).reverse)

/-- Python's `f"{x:.0f}"` formatting, modelled as round-half-up of the exact
rational (Python itself rounds ties to even; no tie occurs in the claims). -/
def fmt0 (q : ℚ) : String := toString (pytrunc (q + 1 / 2))

/-- Python's `f"{x:.1f}"` formatting, modelled in tenths (decimal point
elided; the claims never inspect these display strings). -/
def fmt1 (q : ℚ) : String := toString (pytrunc (10 * q + 1 / 2))

/-- Output record of both scoring paths: the dict returned by
`_analyze_with_openrouter` / `_enhanced_fallback_analysis`. -/
structure ClipDescriptor where
  start_time : ℚ
  end_time : ℚ
  duration : ℚ
  title : String
  virality_score : ℤ
  content_type : String
  hook_strength : ℤ
  completion_score : ℤ
  engagement_factors : List String
  transcript : String

/-- The `context` dict built in `_analyze_segment`. -/
structure SegCtx where
  start_time : ℚ
  end_time : ℚ
  duration : ℚ
  clip_number : ℕ
  position_in_video : ℚ
  total_duration : ℚ

/-- Seeds for every random draw made by `_enhanced_fallback_analysis`. -/
structure FallbackDraws where
  baseSeed : ℕ
  posSeed : ℕ
  durSeed : ℕ
  titleSeed : ℕ
  typeSeed : ℕ
  hookSeed : ℕ
  complSeed : ℕ

/-- The `message` object of an OpenRouter chat completion choice. -/
structure ORMessage where
  content : String
  reasoning : String

/-- An OpenRouter HTTP response: status code plus the first choice's message. -/
structure ORResponse where
  status : ℕ
  message : ORMessage

/-- Fields that `_analyze_with_openrouter` reads from the parsed JSON object
(each may be absent, `dict.get` supplies the default). -/
structure ORAnalysis where
  title : Option String
  virality_score : Option ℤ
  content_type : Option String
  hook_strength : Option ℤ
  engagement_factors : Option (List String)

/-- The literal `content_types` list of `_enhanced_fallback_analysis`. -/
def content_types : List String :=
  ["entertainment", "educational", "reaction", "tutorial", "comedy"]

/-- The literal `title_templates` list of `_enhanced_fallback_analysis`,
parameterized by the segment context exactly as the f-strings are. -/
def title_templates (c : SegCtx) : List String :=
  ["🔥 Epic Moment #" ++ toString c.clip_number ++ ": " ++ fmt0 c.duration ++ "s of Pure Action!",
   "🎯 Must-Watch: " ++ fmt0 c.duration ++ "-Second Viral Clip!",
   "⚡ Incredible " ++ fmt0 c.duration ++ "s That Will Amaze You!",
   "🚀 Viral Alert: " ++ fmt0 c.duration ++ "s of Epic Content!",
   "💥 Mind-Blowing " ++ fmt0 c.duration ++ "-Second Moment!",
   "🎬 Cinema Gold: " ++ fmt0 c.duration ++ "s of Pure Entertainment!",
   "🔥 This " ++ fmt0 c.duration ++ "s Clip is INSANE!",
   "⭐ Highlight Reel: " ++ fmt0 c.duration ++ "s of Greatness!",
   "🎯 Perfect " ++ fmt0 c.duration ++ "s for Social Media!",
   "💎 Hidden Gem: " ++ fmt0 c.duration ++ "s of Quality Content!"]

/-- The method `_enhanced_fallback_analysis(context)`. -/
def enhanced_fallback_analysis (c : SegCtx) (r : FallbackDraws) : ClipDescriptor :=
  let duration := c.duration
  let position := c.position_in_video
  let base := randint 60 80 r.baseSeed
  let afterPos := base +
    (if position < 1 / 5 then randint 10 20 r.posSeed
     else if position < 2 / 5 then randint 5 15 r.posSeed
     else if 4 / 5 < position then randint 3 12 r.posSeed
     else 0)
  let afterDur := afterPos +
    (if 30 ≤ duration ∧ duration ≤ 60 then randint 5 15 r.durSeed
     else if 20 ≤ duration ∧ duration < 30 then randint 2 8 r.durSeed
     else if 60 < duration ∧ duration ≤ 90 then randint 0 5 r.durSeed
     else 0)
  let score := min (max afterDur 30) 99
  let content_type := pychoice content_types r.typeSeed
  { start_time := c.start_time
    end_time := c.end_time
    duration := duration
    title := pychoice (title_templates c) r.titleSeed
    virality_score := score
    content_type := content_type
    hook_strength := randint 50 90 r.hookSeed
    completion_score := randint 60 95 r.complSeed
    engagement_factors := ["strategic_positioning", "optimal_duration", "enhanced_analysis"]
    transcript := "Strategic clip from " ++ fmt1 c.start_time ++ "s to " ++ fmt1 c.end_time
      ++ "s - " ++ content_type ++ " content" }

/-- Opening brace character (written by code point to keep it out of string
literals). -/
def lbrace : Char := Char.ofNat 123

/-- Closing brace character. -/
def rbrace : Char := Char.ofNat 125

/-- The greedy DOTALL regex search for a brace-delimited block used on the
OpenRouter payload: the substring from the first opening brace to the last
closing brace after it, if any. -/
def find_json (s : String) : Option String :=
  let cs := s.data
  let opens := (List.range cs.length).filter (fun k => cs.getD k ' ' == lbrace)
  let closes := (List.range cs.length).filter (fun k => cs.getD k ' ' == rbrace)
  match opens.head?, closes.getLast? with
  | some i, some j => if i < j then some (String.mk ((cs.drop i).take (j - i + 1))) else none
  | _, _ => none

/-- Text selection of `_analyze_with_openrouter`: the `content` field if it is
nonempty after stripping, else the `reasoning` field. -/
def analysis_text (m : ORMessage) : String :=
  if pystrip m.content ≠ "" then m.content else m.reasoning

/-- The method `_analyze_with_openrouter(context)`.  `Except.error` stands for
the `raise Exception(...)` reached on any non-200 status, missing JSON object,
or JSON parse failure. -/
def analyze_with_openrouter (parse : String → Option ORAnalysis) (resp : ORResponse)
    (c : SegCtx) : Except String ClipDescriptor :=
  if resp.status = 200 then
    match find_json (analysis_text resp.message) with
    | some js =>
      match parse js with
      | some a =>
        .ok { start_time := c.start_time
              end_time := c.end_time
              duration := c.duration
              title := a.title.getD ("Viral Clip " ++ toString c.clip_number)
              virality_score := a.virality_score.getD 75
              content_type := a.content_type.getD "entertainment"
              hook_strength := a.hook_strength.getD 70
              completion_score := 80
              engagement_factors := a.engagement_factors.getD ["ai_analyzed"]
              transcript := "AI-analyzed content from " ++ fmt1 c.start_time ++ "s to "
                ++ fmt1 c.end_time ++ "s" }
      | none => .error "Error parsing OpenRouter response"
    | none => .error "Could not extract JSON from OpenRouter response"
  else .error "OpenRouter API error"

/-- The method `_analyze_segment`: try the OpenRouter path when available,
fall back to `_enhanced_fallback_analysis` on its failure. -/
def analyze_segment (available : Bool) (parse : String → Option ORAnalysis)
    (resp : ORResponse) (c : SegCtx) (r : FallbackDraws) : ClipDescriptor :=
  if available then
    match analyze_with_openrouter parse resp c with
    | .ok d => d
    | .error _ => enhanced_fallback_analysis c r
  else enhanced_fallback_analysis c r

/-- Target clip count of `_generate_strategic_segments` (tiered by duration;
`int()` truncates). -/
def target_clips (d : ℚ) : ℤ :=
  if d ≤ 300 then min 5 (max 3 (pytrunc (d / 80)))
  else if d ≤ 600 then min 7 (max 5 (pytrunc (d / 90)))
  else min 8 (max 6 (pytrunc (d / 120)))

/-- Bounds of `random.randint` for the clip duration drawn at section `i`. -/
def clip_range (target i : ℕ) : ℤ × ℤ :=
  if i = 0 then (30, 60)
  else if i < target / 3 then (25, 70)
  else (20, 90)

/-- Candidate window built for section `i`: randomized start offset (`off i`
is the value drawn by `random.uniform`), randomized duration, end clamped to
`duration - 1`, kept only when at least 20 seconds long. -/
def candidate (d : ℚ) (target : ℕ) (off : ℕ → ℚ) (ds : ℕ → ℕ) (i : ℕ) :
    Option (ℚ × ℚ) :=
  let sectionSize := d / (target : ℚ)
  let startTime := max 0 ((i : ℚ) * sectionSize + off i)
  let lohi := clip_range target i
  let clipDuration := randint lohi.1 lohi.2 (ds i)
  let endTime := min (startTime + (clipDuration : ℚ)) (d - 1)
  if 20 ≤ endTime - startTime then some (startTime, endTime) else none

/-- Ordering of segments by start time, the key of Python's `sorted`. -/
def segLE (a b : ℚ × ℚ) : Prop := a.1 ≤ b.1

instance : DecidableRel segLE := fun a b => inferInstanceAs (Decidable (a.1 ≤ b.1))

instance : IsTotal (ℚ × ℚ) segLE := ⟨fun a b => le_total a.1 b.1⟩

instance : IsTrans (ℚ × ℚ) segLE := ⟨fun _ _ _ h1 h2 => le_trans h1 h2⟩

/-- Loop body of `_remove_overlaps`: `last` is the last accepted segment. -/
def removeOverlapsAux (last : ℚ × ℚ) : List (ℚ × ℚ) → List (ℚ × ℚ)
  | [] => []
  | cur :: rest =>
    if cur.1 < last.2 then
      if cur.1 < last.2 - 10 then removeOverlapsAux last rest
      else
        let adjusted := last.2 + 1
        if 20 ≤ cur.2 - adjusted then
          (adjusted, cur.2) :: removeOverlapsAux (adjusted, cur.2) rest
        else removeOverlapsAux last rest
    else cur :: removeOverlapsAux cur rest

/-- The method `_remove_overlaps(segments)`. -/
def remove_overlaps : List (ℚ × ℚ) → List (ℚ × ℚ)
  | [] => []
  | s :: rest => s :: removeOverlapsAux s rest

/-- The method `_generate_strategic_segments(duration)`. -/
def generate_strategic_segments (d : ℚ) (off : ℕ → ℚ) (ds : ℕ → ℕ) :
    List (ℚ × ℚ) :=
  let target := (target_clips d).toNat
  let candidates := (List.range target).filterMap (candidate d target off ds)
  remove_overlaps (List.insertionSort segLE candidates)

/-- The `context` dict built by `_analyze_segment` for the `i`-th segment
(1-based `clip_number`). -/
def mkCtx (s : ℚ × ℚ) (total : ℚ) (n : ℕ) : SegCtx :=
  { start_time := s.1
    end_time := s.2
    duration := s.2 - s.1
    clip_number := n
    position_in_video := s.1 / total
    total_duration := total }

/-- The scoring loop of `generate_intelligent_clips`: analyze each segment in
order, numbering from `i + 1`. -/
def scoreAll (available : Bool) (parse : String → Option ORAnalysis)
    (resps : ℕ → ORResponse) (fb : ℕ → FallbackDraws) (total : ℚ) :
    ℕ → List (ℚ × ℚ) → List ClipDescriptor
  | _, [] => []
  | i, s :: rest =>
    analyze_segment available parse (resps i) (mkCtx s total (i + 1)) (fb i)
      :: scoreAll available parse resps fb total (i + 1) rest

/-- The method `generate_intelligent_clips`, modelled from the duration
onward (the ffprobe lookup is an external collaborator per the spec). -/
def generate_intelligent_clips (available : Bool) (parse : String → Option ORAnalysis)
    (resps : ℕ → ORResponse) (d : ℚ) (off : ℕ → ℚ) (ds : ℕ → ℕ)
    (fb : ℕ → FallbackDraws) : List ClipDescriptor :=
  scoreAll available parse resps fb d 0 (generate_strategic_segments d off ds)

/-- Windows that can appear in a final plan for duration `d`. -/
def GoodSeg (d : ℚ) (x : ℚ × ℚ) : Prop :=
  0 ≤ x.1 ∧ 20 ≤ x.2 - x.1 ∧ x.2 ≤ d - 1

/-- Concrete segment context: first 30 seconds of a 600-second video. -/
def ctx0 : SegCtx := ⟨0, 30, 30, 1, 0, 600⟩

/-- Concrete segment context: a second 30-second window of the same batch. -/
def ctx2 : SegCtx := ⟨100, 130, 30, 2, 1 / 6, 600⟩

/-- All-zero random draws. -/
def draws0 : FallbackDraws := ⟨0, 0, 0, 0, 0, 0, 0⟩

/-- Random draws selecting title template index 1. -/
def draws1 : FallbackDraws := ⟨0, 0, 0, 1, 0, 0, 0⟩

/-- A parsed payload carrying an out-of-range virality score. -/
def ana150 : ORAnalysis := ⟨none, some 150, none, none, none⟩

/-- A successful OpenRouter response whose content holds a JSON object. -/
def resp150 : ORResponse := ⟨200, ⟨"\x7bx\x7d", ""⟩⟩

/-- Concrete uniform-offset draws for a six-section 600-second plan. -/
def off7 : ℕ → ℚ
  | 1 => 20
  | 2 => -20
  | 3 => 20
  | 4 => -20
  | _ => 0

/-- Concrete duration seeds for the same plan (durations 30, 70, 20, 90, 20, 20). -/
def ds7 : ℕ → ℕ
  | 1 => 45
  | 3 => 70
  | _ => 0

/-- The window the planner builds for section `i` of a 600-second plan
(before the 20-second filter); matches the body of `candidate` at
`d = 600`, `target = 6`. -/
def seg600 (off : ℕ → ℚ) (ds : ℕ → ℕ) (i : ℕ) : ℚ × ℚ :=
  (max 0 ((i : ℚ) * (600 / ((6 : ℕ) : ℚ)) + off i),
   min (max 0 ((i : ℚ) * (600 / ((6 : ℕ) : ℚ)) + off i)
       + ((randint (clip_range 6 i).1 (clip_range 6 i).2 (ds i) : ℤ) : ℚ)) (600 - 1))

/-! ### Basic facts about the randomness model -/

theorem randint_le (a b : ℤ) (h : a ≤ b) (s : ℕ) :
    a ≤ randint a b s ∧ randint a b s ≤ b := by
  unfold randint
  have h1 : 0 ≤ (s : ℤ) % (b - a + 1) := Int.emod_nonneg _ (by omega)
  have h2 : (s : ℤ) % (b - a + 1) < b - a + 1 := Int.emod_lt_of_pos _ (by omega)
  omega

theorem randint_reach (a b v : ℤ) (h1 : a ≤ v) (h2 : v ≤ b) :
    randint a b (v - a).toNat = v := by
  unfold randint
  have h3 : ((v - a).toNat : ℤ) = v - a := Int.toNat_of_nonneg (by omega)
  rw [h3, Int.emod_eq_of_lt (by omega) (by omega)]
  omega

theorem pychoice_mem (l : List String) (hl : l ≠ []) (s : ℕ) : pychoice l s ∈ l := by
  have hpos : 0 < l.length := List.length_pos.mpr hl
  have hlt : s % l.length < l.length := Nat.mod_lt _ hpos
  unfold pychoice
  rw [List.getD_eq_getElem l _ hlt]
  exact List.getElem_mem hlt

/-! ### Invariants of the overlap-resolution pass -/

theorem removeOverlapsAux_spec (d : ℚ) (l : List (ℚ × ℚ)) :
    ∀ last : ℚ × ℚ, GoodSeg d last → (∀ x ∈ l, GoodSeg d x) →
      (∀ y ∈ removeOverlapsAux last l, GoodSeg d y) ∧
      (removeOverlapsAux last l).Pairwise (fun a b => a.2 ≤ b.1) ∧
      (∀ y ∈ removeOverlapsAux last l, last.2 ≤ y.1) := by
  induction l with
  | nil => intro last _ _; simp [removeOverlapsAux]
  | cons cur rest ih =>
    intro last hlast hall
    have hcur : GoodSeg d cur := hall cur (by simp)
    have hrest : ∀ x ∈ rest, GoodSeg d x := fun x hx => hall x (by simp [hx])
    obtain ⟨hl0, hl20, hld⟩ := hlast
    obtain ⟨hc0, hc20, hcd⟩ := hcur
    by_cases h1 : cur.1 < last.2
    · by_cases h2 : cur.1 < last.2 - 10
      · simpa only [removeOverlapsAux, if_pos h1, if_pos h2] using ih last ⟨hl0, hl20, hld⟩ hrest
      · by_cases h3 : 20 ≤ cur.2 - (last.2 + 1)
        · have hg : GoodSeg d (last.2 + 1, cur.2) := ⟨by simp; linarith, by simpa using h3, hcd⟩
          obtain ⟨g1, g2, g3⟩ := ih (last.2 + 1, cur.2) hg hrest
          simp only [removeOverlapsAux, if_pos h1, if_neg h2, if_pos h3]
          refine ⟨?_, ?_, ?_⟩
          · intro y hy
            rcases List.mem_cons.mp hy with rfl | hy
            · exact hg
            · exact g1 y hy
          · exact List.Pairwise.cons (fun y hy => by simpa using g3 y hy) g2
          · intro y hy
            rcases List.mem_cons.mp hy with rfl | hy
            · simp
            · have := g3 y hy; simp at this; linarith
        · simp only [removeOverlapsAux, if_pos h1, if_neg h2, if_neg h3]
          exact ih last ⟨hl0, hl20, hld⟩ hrest
    · obtain ⟨g1, g2, g3⟩ := ih cur ⟨hc0, hc20, hcd⟩ hrest
      simp only [removeOverlapsAux, if_neg h1]
      refine ⟨?_, ?_, ?_⟩
      · intro y hy
        rcases List.mem_cons.mp hy with rfl | hy
        · exact ⟨hc0, hc20, hcd⟩
        · exact g1 y hy
      · exact List.Pairwise.cons (fun y hy => g3 y hy) g2
      · intro y hy
        rcases List.mem_cons.mp hy with rfl | hy
        · linarith [not_lt.mp h1]
        · have := g3 y hy; linarith [not_lt.mp h1]

theorem removeOverlapsAux_length (l : List (ℚ × ℚ)) :
    ∀ last, (removeOverlapsAux last l).length ≤ l.length := by
  induction l with
  | nil => simp [removeOverlapsAux]
  | cons cur rest ih =>
    intro last
    by_cases h1 : cur.1 < last.2
    · by_cases h2 : cur.1 < last.2 - 10
      · simp only [removeOverlapsAux, if_pos h1, if_pos h2, List.length_cons]
        exact le_trans (ih last) (Nat.le_succ _)
      · by_cases h3 : 20 ≤ cur.2 - (last.2 + 1)
        · simp only [removeOverlapsAux, if_pos h1, if_neg h2, if_pos h3, List.length_cons]
          exact Nat.succ_le_succ (ih _)
        · simp only [removeOverlapsAux, if_pos h1, if_neg h2, if_neg h3, List.length_cons]
          exact le_trans (ih last) (Nat.le_succ _)
    · simp only [removeOverlapsAux, if_neg h1, List.length_cons]
      exact Nat.succ_le_succ (ih _)

theorem remove_overlaps_spec (d : ℚ) (l : List (ℚ × ℚ)) (hall : ∀ x ∈ l, GoodSeg d x) :
    (∀ y ∈ remove_overlaps l, GoodSeg d y) ∧
    (remove_overlaps l).Pairwise (fun a b => a.2 ≤ b.1) := by
  cases l with
  | nil => simp [remove_overlaps]
  | cons s rest =>
    have hs : GoodSeg d s := hall s (by simp)
    obtain ⟨g1, g2, g3⟩ :=
      removeOverlapsAux_spec d rest s hs (fun x hx => hall x (by simp [hx]))
    unfold remove_overlaps
    constructor
    · intro y hy
      rcases List.mem_cons.mp hy with rfl | hy
      · exact hs
      · exact g1 y hy
    · exact List.Pairwise.cons (fun y hy => g3 y hy) g2

theorem remove_overlaps_length (l : List (ℚ × ℚ)) :
    (remove_overlaps l).length ≤ l.length := by
  cases l with
  | nil => simp [remove_overlaps]
  | cons s rest =>
    simp only [remove_overlaps, List.length_cons]
    exact Nat.succ_le_succ (removeOverlapsAux_length rest s)

theorem remove_overlaps_ne_nil (l : List (ℚ × ℚ)) (h : l ≠ []) :
    remove_overlaps l ≠ [] := by
  cases l with
  | nil => exact absurd rfl h
  | cons s rest => simp [remove_overlaps]

/-! ### Soundness of the planner -/

theorem candidate_good (d : ℚ) (target : ℕ) (off : ℕ → ℚ) (ds : ℕ → ℕ) (i : ℕ)
    (x : ℚ × ℚ) (h : candidate d target off ds i = some x) : GoodSeg d x := by
  simp only [candidate] at h
  split_ifs at h with hc
  obtain rfl := Option.some.inj h
  exact ⟨le_max_left 0 _, hc, min_le_right _ _⟩

theorem pairwise_start_of_sep (l : List (ℚ × ℚ)) (hd : ∀ x ∈ l, x.1 ≤ x.2)
    (h : l.Pairwise fun a b => a.2 ≤ b.1) : l.Pairwise fun a b => a.1 ≤ b.1 :=
  List.Pairwise.imp_of_mem (fun ha _ hab => le_trans (hd _ ha) hab) h

theorem generate_strategic_segments_spec (d : ℚ) (off : ℕ → ℚ) (ds : ℕ → ℕ) :
    (∀ y ∈ generate_strategic_segments d off ds, GoodSeg d y) ∧
    (generate_strategic_segments d off ds).Pairwise (fun a b => a.2 ≤ b.1) := by
  have hall : ∀ x ∈ List.insertionSort segLE
      ((List.range (target_clips d).toNat).filterMap
        (candidate d (target_clips d).toNat off ds)), GoodSeg d x := by
    intro x hx
    have hx' := (List.perm_insertionSort segLE _).mem_iff.mp hx
    obtain ⟨i, _, hi⟩ := List.mem_filterMap.mp hx'
    exact candidate_good d _ off ds i x hi
  exact remove_overlaps_spec d _ hall

/-! ### Facts about the scorer -/

theorem fallback_start_end (c : SegCtx) (r : FallbackDraws) :
    (enhanced_fallback_analysis c r).start_time = c.start_time ∧
    (enhanced_fallback_analysis c r).end_time = c.end_time := ⟨rfl, rfl⟩

theorem fallback_virality_eq (c : SegCtx) (r : FallbackDraws) :
    (enhanced_fallback_analysis c r).virality_score =
      min (max (randint 60 80 r.baseSeed
        + (if c.position_in_video < 1 / 5 then randint 10 20 r.posSeed
           else if c.position_in_video < 2 / 5 then randint 5 15 r.posSeed
           else if 4 / 5 < c.position_in_video then randint 3 12 r.posSeed
           else 0)
        + (if 30 ≤ c.duration ∧ c.duration ≤ 60 then randint 5 15 r.durSeed
           else if 20 ≤ c.duration ∧ c.duration < 30 then randint 2 8 r.durSeed
           else if 60 < c.duration ∧ c.duration ≤ 90 then randint 0 5 r.durSeed
           else 0)) 30) 99 := rfl

theorem fallback_virality (c : SegCtx) (r : FallbackDraws) :
    60 ≤ (enhanced_fallback_analysis c r).virality_score ∧
    (enhanced_fallback_analysis c r).virality_score ≤ 99 := by
  rw [fallback_virality_eq]
  have hbase := (randint_le 60 80 (by norm_num) r.baseSeed).1
  have hpos : (0 : ℤ) ≤
      (if c.position_in_video < 1 / 5 then randint 10 20 r.posSeed
       else if c.position_in_video < 2 / 5 then randint 5 15 r.posSeed
       else if 4 / 5 < c.position_in_video then randint 3 12 r.posSeed
       else 0) := by
    split_ifs with h1 h2 h3
    · linarith [(randint_le 10 20 (by norm_num) r.posSeed).1]
    · linarith [(randint_le 5 15 (by norm_num) r.posSeed).1]
    · linarith [(randint_le 3 12 (by norm_num) r.posSeed).1]
    · exact le_refl 0
  have hdur : (0 : ℤ) ≤
      (if 30 ≤ c.duration ∧ c.duration ≤ 60 then randint 5 15 r.durSeed
       else if 20 ≤ c.duration ∧ c.duration < 30 then randint 2 8 r.durSeed
       else if 60 < c.duration ∧ c.duration ≤ 90 then randint 0 5 r.durSeed
       else 0) := by
    split_ifs with h1 h2 h3
    · linarith [(randint_le 5 15 (by norm_num) r.durSeed).1]
    · linarith [(randint_le 2 8 (by norm_num) r.durSeed).1]
    · linarith [(randint_le 0 5 (by norm_num) r.durSeed).1]
    · exact le_refl 0
  refine ⟨le_min (le_trans (by linarith) (le_max_left _ _)) (by norm_num), min_le_right _ _⟩

theorem fallback_content_type (c : SegCtx) (r : FallbackDraws) :
    (enhanced_fallback_analysis c r).content_type = pychoice content_types r.typeSeed := rfl

theorem fallback_title (c : SegCtx) (r : FallbackDraws) :
    (enhanced_fallback_analysis c r).title = pychoice (title_templates c) r.titleSeed := rfl

theorem analyze_with_openrouter_ok (parse : String → Option ORAnalysis) (resp : ORResponse)
    (c : SegCtx) (dsc : ClipDescriptor)
    (h : analyze_with_openrouter parse resp c = .ok dsc) :
    resp.status = 200 ∧ dsc.start_time = c.start_time ∧ dsc.end_time = c.end_time ∧
    ∃ js a, find_json (analysis_text resp.message) = some js ∧ parse js = some a ∧
      dsc.virality_score = a.virality_score.getD 75 := by
  unfold analyze_with_openrouter at h
  split at h
  · rename_i hs
    split at h
    · rename_i js hfind
      split at h
      · rename_i a hp
        obtain rfl := Except.ok.inj h
        exact ⟨hs, rfl, rfl, js, a, hfind, hp, rfl⟩
      · exact Except.noConfusion h
    · exact Except.noConfusion h
  · exact Except.noConfusion h

theorem analyze_segment_start_end (av : Bool) (parse : String → Option ORAnalysis)
    (resp : ORResponse) (c : SegCtx) (r : FallbackDraws) :
    (analyze_segment av parse resp c r).start_time = c.start_time ∧
    (analyze_segment av parse resp c r).end_time = c.end_time := by
  unfold analyze_segment
  cases av with
  | false => exact fallback_start_end c r
  | true =>
    rw [if_pos rfl]
    cases hh : analyze_with_openrouter parse resp c with
    | ok d =>
      obtain ⟨_, h1, h2, _⟩ := analyze_with_openrouter_ok parse resp c d hh
      simp only [hh]
      exact ⟨h1, h2⟩
    | error e =>
      simp only [hh]
      exact fallback_start_end c r

theorem analyze_segment_fallback (parse : String → Option ORAnalysis) (resp : ORResponse)
    (c : SegCtx) (r : FallbackDraws)
    (h : resp.status ≠ 200 ∨ (find_json (analysis_text resp.message)).bind parse = none) :
    analyze_segment true parse resp c r = enhanced_fallback_analysis c r := by
  have herr : ∀ d, analyze_with_openrouter parse resp c ≠ .ok d := by
    intro d hok
    obtain ⟨hs, _, _, js, a, hfind, hp, _⟩ := analyze_with_openrouter_ok parse resp c d hok
    rcases h with h | h
    · exact h hs
    · rw [hfind] at h
      have h2 : parse js = none := h
      rw [hp] at h2
      exact Option.noConfusion h2
  unfold analyze_segment
  rw [if_pos rfl]
  cases hh : analyze_with_openrouter parse resp c with
  | ok d => exact absurd hh (herr d)
  | error e => simp only [hh]

theorem scoreAll_length (av : Bool) (parse : String → Option ORAnalysis)
    (resps : ℕ → ORResponse) (fb : ℕ → FallbackDraws) (total : ℚ) :
    ∀ (i : ℕ) (l : List (ℚ × ℚ)),
      (scoreAll av parse resps fb total i l).length = l.length := by
  intro i l
  induction l generalizing i with
  | nil => rfl
  | cons s rest ih => simp [scoreAll, ih]

theorem scoreAll_map_start (av : Bool) (parse : String → Option ORAnalysis)
    (resps : ℕ → ORResponse) (fb : ℕ → FallbackDraws) (total : ℚ) :
    ∀ (i : ℕ) (l : List (ℚ × ℚ)),
      (scoreAll av parse resps fb total i l).map ClipDescriptor.start_time
        = l.map Prod.fst := by
  intro i l
  induction l generalizing i with
  | nil => rfl
  | cons s rest ih =>
    simp only [scoreAll, List.map_cons, ih]
    exact congrArg (· :: rest.map Prod.fst)
      (analyze_segment_start_end av parse (resps i) (mkCtx s total (i + 1)) (fb i)).1

theorem scoreAll_mem (av : Bool) (parse : String → Option ORAnalysis)
    (resps : ℕ → ORResponse) (fb : ℕ → FallbackDraws) (total : ℚ) :
    ∀ (i : ℕ) (l : List (ℚ × ℚ)) (x : ClipDescriptor),
      x ∈ scoreAll av parse resps fb total i l →
      ∃ j s, s ∈ l ∧ x = analyze_segment av parse (resps j) (mkCtx s total (j + 1)) (fb j) := by
  intro i l
  induction l generalizing i with
  | nil => intro x hx; exact absurd hx (by simp [scoreAll])
  | cons s rest ih =>
    intro x hx
    rcases List.mem_cons.mp hx with rfl | hx
    · exact ⟨i, s, by simp, rfl⟩
    · obtain ⟨j, t, ht, he⟩ := ih (i + 1) x hx
      exact ⟨j, t, by simp [ht], he⟩

/-! ### Further helper lemmas -/

theorem clamp_bounds (lo hi x : ℤ) (h : lo ≤ hi) :
    lo ≤ min hi (max lo x) ∧ min hi (max lo x) ≤ hi :=
  ⟨le_min h (le_max_left lo x), min_le_left hi _⟩

theorem nonpos_window_short (d x y : ℚ) (hd : d ≤ 0) :
    ¬ 20 ≤ min y (d - 1) - max 0 x := by
  intro h
  have h1 := le_max_left 0 x
  have h2 := min_le_right y (d - 1)
  linarith

theorem candidate_none_of_nonpos (d : ℚ) (hd : d ≤ 0) (target : ℕ) (off : ℕ → ℚ)
    (ds : ℕ → ℕ) (i : ℕ) : candidate d target off ds i = none := by
  simp only [candidate]
  rw [if_neg (nonpos_window_short d _ _ hd)]

/-! ### Claim C2 -/

/-- C2: for every duration > 0 and every sequence of random draws, the plan is
sorted ascending by start time, adjacent segments satisfy `end ≤ next.start`,
and every segment satisfies `0 ≤ start < end ≤ duration` (ends are in fact
clamped to `duration - 1`) with duration at least 20 seconds. -/
theorem C2_plan_sound (d : ℚ) (hd : 0 < d) (off : ℕ → ℚ) (ds : ℕ → ℕ) :
    (generate_strategic_segments d off ds).Pairwise (fun a b => a.1 ≤ b.1) ∧
    (generate_strategic_segments d off ds).Chain' (fun a b => a.2 ≤ b.1) ∧
    ∀ s ∈ generate_strategic_segments d off ds,
      0 ≤ s.1 ∧ s.1 < s.2 ∧ s.2 ≤ d - 1 ∧ s.2 ≤ d ∧ 20 ≤ s.2 - s.1 := by
  obtain ⟨hg, hp⟩ := generate_strategic_segments_spec d off ds
  have hle : ∀ x ∈ generate_strategic_segments d off ds, x.1 ≤ x.2 := by
    intro x hx
    have := (hg x hx).2.1
    linarith
  refine ⟨pairwise_start_of_sep _ hle hp, List.Pairwise.chain' hp, ?_⟩
  intro s hs
  obtain ⟨h0, h20, hc⟩ := hg s hs
  exact ⟨h0, by linarith, hc, by linarith, h20⟩

/-- Witness for C2 at duration 600 with all-zero draws. -/
theorem C2_plan_sound_witness :
    (0 : ℚ) < 600 ∧
    ((generate_strategic_segments 600 (fun _ => 0) (fun _ => 0)).Pairwise
        (fun a b => a.1 ≤ b.1) ∧
      (generate_strategic_segments 600 (fun _ => 0) (fun _ => 0)).Chain'
        (fun a b => a.2 ≤ b.1) ∧
      ∀ s ∈ generate_strategic_segments 600 (fun _ => 0) (fun _ => 0),
        0 ≤ s.1 ∧ s.1 < s.2 ∧ s.2 ≤ 600 - 1 ∧ s.2 ≤ 600 ∧ 20 ≤ s.2 - s.1) :=
  ⟨by norm_num, C2_plan_sound 600 (by norm_num) (fun _ => 0) (fun _ => 0)⟩

/-! ### Claim C3 -/

/-- C3: one step of the overlap-resolution pass over start-sorted candidates:
a candidate starting at or after the last accepted end is accepted unchanged;
one overlapping by more than 10 seconds is dropped; otherwise its start is
shifted to `last.end + 1` and it is kept exactly when the shifted duration is
at least 20. -/
theorem C3_overlap_step (last cur : ℚ × ℚ) (rest : List (ℚ × ℚ)) :
    (last.2 ≤ cur.1 →
      removeOverlapsAux last (cur :: rest) = cur :: removeOverlapsAux cur rest) ∧
    (cur.1 < last.2 - 10 →
      removeOverlapsAux last (cur :: rest) = removeOverlapsAux last rest) ∧
    (last.2 - 10 ≤ cur.1 → cur.1 < last.2 →
      removeOverlapsAux last (cur :: rest) =
        if 20 ≤ cur.2 - (last.2 + 1) then
          (last.2 + 1, cur.2) :: removeOverlapsAux (last.2 + 1, cur.2) rest
        else removeOverlapsAux last rest) := by
  refine ⟨?_, ?_, ?_⟩
  · intro h
    simp only [removeOverlapsAux, if_neg (not_lt.mpr h)]
  · intro h
    have h1 : cur.1 < last.2 := by linarith
    simp only [removeOverlapsAux, if_pos h1, if_pos h]
  · intro h1 h2
    simp only [removeOverlapsAux, if_pos h2, if_neg (not_lt.mpr h1)]

/-- Witness for C3: an accepted, a dropped, and a shifted candidate. -/
theorem C3_overlap_step_witness :
    removeOverlapsAux ((0 : ℚ), (30 : ℚ)) [(35, 60)] = [(35, 60)] ∧
    removeOverlapsAux ((0 : ℚ), (30 : ℚ)) [(15, 60)] = [] ∧
    removeOverlapsAux ((0 : ℚ), (30 : ℚ)) [(25, 60)] = [(31, 60)] := by
  refine ⟨?_, ?_, ?_⟩
  · rw [(C3_overlap_step (0, 30) (35, 60) []).1 (by norm_num)]
    rfl
  · rw [(C3_overlap_step (0, 30) (15, 60) []).2.1 (by norm_num)]
    rfl
  · rw [(C3_overlap_step (0, 30) (25, 60) []).2.2 (by norm_num) (by norm_num)]
    norm_num [removeOverlapsAux]

/-! ### Claim C4 -/

/-- C4: the planner's target clip count follows the three duration tiers with
their clamped ranges, and the boundary durations 300, 301, 600, 601 land in
the tiers the spec assigns them. -/
theorem C4_target_count (d : ℚ) :
    (d ≤ 300 → target_clips d = min 5 (max 3 (pytrunc (d / 80))) ∧
      3 ≤ target_clips d ∧ target_clips d ≤ 5) ∧
    (300 < d → d ≤ 600 → target_clips d = min 7 (max 5 (pytrunc (d / 90))) ∧
      5 ≤ target_clips d ∧ target_clips d ≤ 7) ∧
    (600 < d → target_clips d = min 8 (max 6 (pytrunc (d / 120))) ∧
      6 ≤ target_clips d ∧ target_clips d ≤ 8) ∧
    (3 ≤ target_clips 300 ∧ target_clips 300 ≤ 5) ∧
    (5 ≤ target_clips 301 ∧ target_clips 301 ≤ 7) ∧
    (5 ≤ target_clips 600 ∧ target_clips 600 ≤ 7) ∧
    (6 ≤ target_clips 601 ∧ target_clips 601 ≤ 8) := by
  refine ⟨?_, ?_, ?_, ?_, ?_, ?_, ?_⟩
  · intro hd
    unfold target_clips
    rw [if_pos hd]
    exact ⟨rfl, clamp_bounds 3 5 _ (by norm_num)⟩
  · intro hd1 hd2
    unfold target_clips
    rw [if_neg (not_le.mpr hd1), if_pos hd2]
    exact ⟨rfl, clamp_bounds 5 7 _ (by norm_num)⟩
  · intro hd
    unfold target_clips
    rw [if_neg (by linarith : ¬ d ≤ 300), if_neg (not_le.mpr hd)]
    exact ⟨rfl, clamp_bounds 6 8 _ (by norm_num)⟩
  · unfold target_clips
    rw [if_pos (by norm_num : (300 : ℚ) ≤ 300)]
    exact clamp_bounds 3 5 _ (by norm_num)
  · unfold target_clips
    rw [if_neg (by norm_num : ¬ (301 : ℚ) ≤ 300), if_pos (by norm_num : (301 : ℚ) ≤ 600)]
    exact clamp_bounds 5 7 _ (by norm_num)
  · unfold target_clips
    rw [if_neg (by norm_num : ¬ (600 : ℚ) ≤ 300), if_pos (by norm_num : (600 : ℚ) ≤ 600)]
    exact clamp_bounds 5 7 _ (by norm_num)
  · unfold target_clips
    rw [if_neg (by norm_num : ¬ (601 : ℚ) ≤ 300), if_neg (by norm_num : ¬ (601 : ℚ) ≤ 600)]
    exact clamp_bounds 6 8 _ (by norm_num)

/-- Witness for C4 at durations 300, 400 and 601. -/
theorem C4_target_count_witness :
    ((300 : ℚ) ≤ 300 ∧ (target_clips 300 = min 5 (max 3 (pytrunc (300 / 80))) ∧
      3 ≤ target_clips 300 ∧ target_clips 300 ≤ 5)) ∧
    ((300 : ℚ) < 400 ∧ (400 : ℚ) ≤ 600 ∧
      (target_clips 400 = min 7 (max 5 (pytrunc (400 / 90))) ∧
        5 ≤ target_clips 400 ∧ target_clips 400 ≤ 7)) ∧
    ((600 : ℚ) < 601 ∧ (target_clips 601 = min 8 (max 6 (pytrunc (601 / 120))) ∧
      6 ≤ target_clips 601 ∧ target_clips 601 ≤ 8)) :=
  ⟨⟨by norm_num, (C4_target_count 300).1 (by norm_num)⟩,
   ⟨by norm_num, by norm_num, (C4_target_count 400).2.1 (by norm_num) (by norm_num)⟩,
   ⟨by norm_num, (C4_target_count 601).2.2.1 (by norm_num)⟩⟩

/-! ### Claim C5 -/

/-- C5: on any external failure (non-success status, or no parsable JSON in
the selected payload text — which covers an empty payload and a parse error),
scoring does not propagate the failure and returns exactly the heuristic
descriptor, which is a valid one. -/
theorem C5_external_failure_falls_back (parse : String → Option ORAnalysis)
    (resp : ORResponse) (c : SegCtx) (r : FallbackDraws)
    (h : resp.status ≠ 200 ∨ (find_json (analysis_text resp.message)).bind parse = none) :
    analyze_segment true parse resp c r = enhanced_fallback_analysis c r ∧
    (analyze_segment true parse resp c r).start_time = c.start_time ∧
    (analyze_segment true parse resp c r).end_time = c.end_time ∧
    30 ≤ (analyze_segment true parse resp c r).virality_score ∧
    (analyze_segment true parse resp c r).virality_score ≤ 99 := by
  have he := analyze_segment_fallback parse resp c r h
  rw [he]
  obtain ⟨h1, h2⟩ := fallback_start_end c r
  obtain ⟨h3, h4⟩ := fallback_virality c r
  exact ⟨rfl, h1, h2, by linarith, h4⟩

/-- Witness for C5: a 500 status and an empty payload both fall back. -/
theorem C5_external_failure_falls_back_witness :
    ((⟨500, ⟨"", ""⟩⟩ : ORResponse).status ≠ 200 ∧
      analyze_segment true (fun _ => none) ⟨500, ⟨"", ""⟩⟩ ctx0 draws0
        = enhanced_fallback_analysis ctx0 draws0) ∧
    ((find_json (analysis_text (⟨"", ""⟩ : ORMessage))).bind
        (fun _ => (none : Option ORAnalysis)) = none ∧
      analyze_segment true (fun _ => none) ⟨200, ⟨"", ""⟩⟩ ctx0 draws0
        = enhanced_fallback_analysis ctx0 draws0) :=
  ⟨⟨by decide,
    (C5_external_failure_falls_back (fun _ => none) ⟨500, ⟨"", ""⟩⟩ ctx0 draws0
      (Or.inl (by decide))).1⟩,
   ⟨rfl,
    (C5_external_failure_falls_back (fun _ => none) ⟨200, ⟨"", ""⟩⟩ ctx0 draws0
      (Or.inr rfl)).1⟩⟩

/-! ### Claim C6 -/

/-- C6: the pipeline is a total function (the top-level exception handler of
`generate_intelligent_clips` never lets an error escape), and a duration of 0
or less yields the empty list. -/
theorem C6_nonpositive_duration_empty (d : ℚ) (hd : d ≤ 0) (av : Bool)
    (parse : String → Option ORAnalysis) (resps : ℕ → ORResponse)
    (off : ℕ → ℚ) (ds : ℕ → ℕ) (fb : ℕ → FallbackDraws) :
    generate_intelligent_clips av parse resps d off ds fb = [] := by
  have hcand : (List.range (target_clips d).toNat).filterMap
      (candidate d (target_clips d).toNat off ds) = [] := by
    rw [List.filterMap_eq_nil_iff]
    intro i _
    exact candidate_none_of_nonpos d hd _ off ds i
  have hseg : generate_strategic_segments d off ds = [] := by
    show remove_overlaps (List.insertionSort segLE
      ((List.range (target_clips d).toNat).filterMap
        (candidate d (target_clips d).toNat off ds))) = []
    rw [hcand]
    rfl
  unfold generate_intelligent_clips
  rw [hseg]
  rfl

/-- Witness for C6 at duration 0. -/
theorem C6_nonpositive_duration_empty_witness :
    (0 : ℚ) ≤ 0 ∧
    generate_intelligent_clips false (fun _ => none) (fun _ => ⟨0, ⟨"", ""⟩⟩) 0
      (fun _ => 0) (fun _ => 0) (fun _ => draws0) = [] :=
  ⟨le_refl 0,
   C6_nonpositive_duration_empty 0 (le_refl 0) false (fun _ => none)
     (fun _ => ⟨0, ⟨"", ""⟩⟩) (fun _ => 0) (fun _ => 0) (fun _ => draws0)⟩

/-! ### Claim C10 -/

/-- C10: on the heuristic path the virality score always lies in [60, 99]
(base at least 60, every bonus nonnegative), so the lower clamp at 30 is
never the binding bound. -/
theorem C10_heuristic_virality_range (c : SegCtx) (r : FallbackDraws) :
    60 ≤ (enhanced_fallback_analysis c r).virality_score ∧
    (enhanced_fallback_analysis c r).virality_score ≤ 99 :=
  fallback_virality c r

/-! ### Claim C1 -/

/-- C1 (amended): on both scoring paths the returned descriptor's start and
end equal the input segment's exactly; the virality score is guaranteed to be
in [30, 99] on the heuristic path, while the external path passes the parsed
value through unclamped (defaulting to 75 when absent). -/
theorem C1_score_contract (av : Bool) (parse : String → Option ORAnalysis)
    (resp : ORResponse) (c : SegCtx) (r : FallbackDraws) :
    (analyze_segment av parse resp c r).start_time = c.start_time ∧
    (analyze_segment av parse resp c r).end_time = c.end_time ∧
    30 ≤ (enhanced_fallback_analysis c r).virality_score ∧
    (enhanced_fallback_analysis c r).virality_score ≤ 99 := by
  obtain ⟨h1, h2⟩ := analyze_segment_start_end av parse resp c r
  obtain ⟨h3, h4⟩ := fallback_virality c r
  exact ⟨h1, h2, by linarith, h4⟩

/-- C1 counterexample: when the external backend's JSON carries
`virality_score = 150`, `score` returns it unchanged, outside [30, 99]. -/
theorem C1_counterexample :
    (analyze_segment true (fun _ => some ana150) resp150 ctx0 draws0).virality_score = 150 ∧
    ¬ (analyze_segment true (fun _ => some ana150) resp150 ctx0 draws0).virality_score ≤ 99 := by
  have h1 : (analyze_segment true (fun _ => some ana150) resp150 ctx0 draws0).virality_score
      = 150 := rfl
  refine ⟨h1, ?_⟩
  rw [h1]
  norm_num

/-! ### Claim C8 -/

/-- C8 counterexample: the heuristic path's enumeration has five members with
`story` absent, so no sequence of draws ever produces `story` there. -/
theorem C8_counterexample :
    "story" ∉ content_types ∧
    ∀ r : FallbackDraws, (enhanced_fallback_analysis ctx0 r).content_type ≠ "story" := by
  refine ⟨by decide, ?_⟩
  intro r h
  rw [fallback_content_type] at h
  have hmem : pychoice content_types r.typeSeed ∈ content_types :=
    pychoice_mem content_types (by decide) r.typeSeed
  rw [h] at hmem
  exact absurd hmem (by decide)

/-- C8 (amended): the heuristic content type is drawn from the fixed
five-element list `content_types` (uniformly over the seed model, which makes
position irrelevant), and every member of that list is a possible output. -/
theorem C8_content_type_choice (c : SegCtx) (r : FallbackDraws) (k : ℕ) (hk : k < 5) :
    (enhanced_fallback_analysis c r).content_type ∈ content_types ∧
    (enhanced_fallback_analysis c
        ⟨r.baseSeed, r.posSeed, r.durSeed, r.titleSeed, k, r.hookSeed, r.complSeed⟩).content_type
      = content_types.getD k "" := by
  constructor
  · rw [fallback_content_type]
    exact pychoice_mem content_types (by decide) r.typeSeed
  · rw [fallback_content_type]
    unfold pychoice
    have hlen : content_types.length = 5 := rfl
    rw [hlen, Nat.mod_eq_of_lt hk]

/-- Witness for C8 at index 4 (the template `comedy`). -/
theorem C8_content_type_choice_witness :
    (4 : ℕ) < 5 ∧
    ((enhanced_fallback_analysis ctx0 draws0).content_type ∈ content_types ∧
      (enhanced_fallback_analysis ctx0 ⟨0, 0, 0, 0, 4, 0, 0⟩).content_type
        = content_types.getD 4 "") :=
  ⟨by decide, C8_content_type_choice ctx0 draws0 4 (by decide)⟩

/-! ### Claim C9 -/

/-- C9 counterexample: two descriptors of one batch can draw the same title
template (index 1 of ten) and receive identical titles even though nine
templates are still unused. -/
theorem C9_counterexample :
    (enhanced_fallback_analysis ctx0 draws1).title
      = (enhanced_fallback_analysis ctx2 draws1).title ∧
    ctx0.clip_number ≠ ctx2.clip_number ∧ (title_templates ctx0).length = 10 := by
  refine ⟨?_, by decide, rfl⟩
  rw [fallback_title, fallback_title]
  rfl

/-- C9 (amended): each title is an independent uniform draw from the
ten-template pool built from the descriptor's own context; there is no batch
memory, so repeats within a batch are possible. -/
theorem C9_title_choice (c : SegCtx) (r : FallbackDraws) :
    (enhanced_fallback_analysis c r).title
      = (title_templates c).getD (r.titleSeed % 10) "" := by
  rw [fallback_title]
  unfold pychoice
  have hlen : (title_templates c).length = 10 := rfl
  rw [hlen]

/-! ### Claim C7: helper computations at duration 600 -/

theorem target600 : (target_clips 600).toNat = 6 := by
  have h : target_clips 600 = 6 := by norm_num [target_clips, pytrunc]
  rw [h]
  rfl

theorem gen600_eq (off : ℕ → ℚ) (ds : ℕ → ℕ) :
    generate_strategic_segments 600 off ds
      = remove_overlaps (List.insertionSort segLE
          ((List.range 6).filterMap (candidate 600 6 off ds))) := by
  show remove_overlaps (List.insertionSort segLE
      ((List.range (target_clips 600).toNat).filterMap
        (candidate 600 (target_clips 600).toNat off ds))) = _
  rw [target600]

theorem cand600_0 : candidate 600 6 off7 ds7 0 = some (0, 30) := by
  norm_num [candidate, clip_range, randint, off7, ds7, max_eq_right, min_eq_left]

theorem cand600_1 : candidate 600 6 off7 ds7 1 = some (120, 190) := by
  norm_num [candidate, clip_range, randint, off7, ds7, max_eq_right, min_eq_left]

theorem cand600_2 : candidate 600 6 off7 ds7 2 = some (180, 200) := by
  norm_num [candidate, clip_range, randint, off7, ds7, max_eq_right, min_eq_left]

theorem cand600_3 : candidate 600 6 off7 ds7 3 = some (320, 410) := by
  norm_num [candidate, clip_range, randint, off7, ds7, max_eq_right, min_eq_left]

theorem cand600_4 : candidate 600 6 off7 ds7 4 = some (380, 400) := by
  norm_num [candidate, clip_range, randint, off7, ds7, max_eq_right, min_eq_left]

theorem cand600_5 : candidate 600 6 off7 ds7 5 = some (500, 520) := by
  norm_num [candidate, clip_range, randint, off7, ds7, max_eq_right, min_eq_left]

theorem cands600 : (List.range 6).filterMap (candidate 600 6 off7 ds7)
    = [(0, 30), (120, 190), (180, 200), (320, 410), (380, 400), (500, 520)] := by
  have h6 : List.range 6 = [0, 1, 2, 3, 4, 5] := rfl
  rw [h6]
  simp [List.filterMap_cons, cand600_0, cand600_1, cand600_2, cand600_3, cand600_4, cand600_5]

theorem sorted_cands600 : List.Sorted segLE
    [((0 : ℚ), (30 : ℚ)), (120, 190), (180, 200), (320, 410), (380, 400), (500, 520)] := by
  norm_num [List.sorted_cons, segLE]

theorem segs600 : generate_strategic_segments 600 off7 ds7
    = [((0 : ℚ), (30 : ℚ)), (120, 190), (320, 410), (500, 520)] := by
  rw [gen600_eq, cands600, List.Sorted.insertionSort_eq sorted_cands600]
  norm_num [remove_overlaps, removeOverlapsAux]

/-- C7 counterexample: at duration 600 with no external backend there is a
sequence of in-range random draws for which the pipeline returns only four
descriptors, below the claimed lower bound of five. -/
theorem C7_counterexample :
    (generate_intelligent_clips false (fun _ => none) (fun _ => ⟨0, ⟨"", ""⟩⟩) 600
        off7 ds7 (fun _ => draws0)).length = 4 ∧ ¬ (5 : ℕ) ≤ 4 := by
  constructor
  · unfold generate_intelligent_clips
    rw [segs600, scoreAll_length]
    rfl
  · decide

theorem candidate600_seg (off : ℕ → ℚ) (ds : ℕ → ℕ) (i : ℕ) :
    candidate 600 6 off ds i
      = if 20 ≤ (seg600 off ds i).2 - (seg600 off ds i).1 then some (seg600 off ds i)
        else none := rfl

theorem clip_range_facts (i : ℕ) : (clip_range 6 i).1 ≤ (clip_range 6 i).2 ∧
    20 ≤ (clip_range 6 i).1 ∧ (clip_range 6 i).2 ≤ 90 := by
  unfold clip_range
  split_ifs <;> norm_num

theorem rand600_bounds (ds : ℕ → ℕ) (i : ℕ) :
    (20 : ℚ) ≤ ((randint (clip_range 6 i).1 (clip_range 6 i).2 (ds i) : ℤ) : ℚ) ∧
    ((randint (clip_range 6 i).1 (clip_range 6 i).2 (ds i) : ℤ) : ℚ)
      ≤ (((clip_range 6 i).2 : ℤ) : ℚ) := by
  obtain ⟨hle, hlo, _⟩ := clip_range_facts i
  obtain ⟨h1, h2⟩ := randint_le _ _ hle (ds i)
  constructor
  · exact_mod_cast le_trans hlo h1
  · exact_mod_cast h2

theorem seg600_start_ub (off : ℕ → ℚ) (ds : ℕ → ℕ) (i : ℕ) (h2 : off i ≤ 20) :
    (seg600 off ds i).1 ≤ (i : ℚ) * 100 + 20 := by
  simp only [seg600]
  have h100 : (600 : ℚ) / ((6 : ℕ) : ℚ) = 100 := by norm_num
  rw [h100]
  apply max_le
  · positivity
  · linarith

theorem seg600_start_lb (off : ℕ → ℚ) (ds : ℕ → ℕ) (i : ℕ) (h1 : -20 ≤ off i) :
    (i : ℚ) * 100 - 20 ≤ (seg600 off ds i).1 := by
  simp only [seg600]
  have h100 : (600 : ℚ) / ((6 : ℕ) : ℚ) = 100 := by norm_num
  rw [h100]
  exact le_trans (by linarith) (le_max_right 0 _)

theorem seg600_end_ub (off : ℕ → ℚ) (ds : ℕ → ℕ) (i : ℕ) (h2 : off i ≤ 20) :
    (seg600 off ds i).2 ≤ (i : ℚ) * 100 + 20 + (((clip_range 6 i).2 : ℤ) : ℚ) := by
  have hub := seg600_start_ub off ds i h2
  have hr := (rand600_bounds ds i).2
  simp only [seg600] at hub ⊢
  refine le_trans (min_le_left _ _) ?_
  linarith

theorem seg600_pass (off : ℕ → ℚ) (ds : ℕ → ℕ) (i : ℕ) (h2 : off i ≤ 20) (hi : i ≤ 5) :
    20 ≤ (seg600 off ds i).2 - (seg600 off ds i).1 := by
  have hr := (rand600_bounds ds i).1
  have hub := seg600_start_ub off ds i h2
  have hi5 : (i : ℚ) ≤ 5 := by exact_mod_cast hi
  simp only [seg600] at hub ⊢
  rw [le_sub_iff_add_le]
  apply le_min
  · linarith
  · linarith

theorem seg600_start_mono (off : ℕ → ℚ) (ds : ℕ → ℕ) (i j : ℕ) (hij : i < j)
    (h2 : off i ≤ 20) (h1 : -20 ≤ off j) :
    (seg600 off ds i).1 ≤ (seg600 off ds j).1 := by
  have hub := seg600_start_ub off ds i h2
  have hlb := seg600_start_lb off ds j h1
  have hij1 : (i : ℚ) + 1 ≤ (j : ℚ) := by exact_mod_cast hij
  linarith

theorem seg600_sep (off : ℕ → ℚ) (ds : ℕ → ℕ) (i j : ℕ) (hij : i + 2 ≤ j)
    (h2 : off i ≤ 20) (h1 : -20 ≤ off j) :
    (seg600 off ds i).2 ≤ (seg600 off ds j).1 := by
  have hub := seg600_end_ub off ds i h2
  have hlb := seg600_start_lb off ds j h1
  have hcr : (((clip_range 6 i).2 : ℤ) : ℚ) ≤ 90 := by
    exact_mod_cast (clip_range_facts i).2.2
  have hij2 : (i : ℚ) + 2 ≤ (j : ℚ) := by exact_mod_cast hij
  linarith

theorem cands600_eq (off : ℕ → ℚ) (ds : ℕ → ℕ)
    (hoff : ∀ i < 6, -20 ≤ off i ∧ off i ≤ 20) :
    (List.range 6).filterMap (candidate 600 6 off ds)
      = [seg600 off ds 0, seg600 off ds 1, seg600 off ds 2, seg600 off ds 3,
         seg600 off ds 4, seg600 off ds 5] := by
  have hc : ∀ i, i < 6 → candidate 600 6 off ds i = some (seg600 off ds i) := by
    intro i hi
    rw [candidate600_seg, if_pos (seg600_pass off ds i (hoff i hi).2 (by omega))]
  have e0 := hc 0 (by norm_num)
  have e1 := hc 1 (by norm_num)
  have e2 := hc 2 (by norm_num)
  have e3 := hc 3 (by norm_num)
  have e4 := hc 4 (by norm_num)
  have e5 := hc 5 (by norm_num)
  have h6 : List.range 6 = [0, 1, 2, 3, 4, 5] := rfl
  rw [h6]
  simp [List.filterMap_cons, e0, e1, e2, e3, e4, e5]

theorem cands600_sorted (off : ℕ → ℚ) (ds : ℕ → ℕ)
    (hoff : ∀ i < 6, -20 ≤ off i ∧ off i ≤ 20) :
    List.Sorted segLE [seg600 off ds 0, seg600 off ds 1, seg600 off ds 2,
      seg600 off ds 3, seg600 off ds 4, seg600 off ds 5] := by
  have m : ∀ i j, i < j → j < 6 → segLE (seg600 off ds i) (seg600 off ds j) := by
    intro i j hij hj
    exact seg600_start_mono off ds i j hij (hoff i (by omega)).2 (hoff j hj).1
  show List.Pairwise segLE _
  rw [← List.chain'_iff_pairwise]
  simp only [List.chain'_cons, List.chain'_singleton, and_true]
  exact ⟨m 0 1 (by norm_num) (by norm_num), m 1 2 (by norm_num) (by norm_num),
    m 2 3 (by norm_num) (by norm_num), m 3 4 (by norm_num) (by norm_num),
    m 4 5 (by norm_num) (by norm_num)⟩

theorem removeOverlapsAux_accept (last cur : ℚ × ℚ) (rest : List (ℚ × ℚ))
    (h : last.2 ≤ cur.1) :
    removeOverlapsAux last (cur :: rest) = cur :: removeOverlapsAux cur rest := by
  simp only [removeOverlapsAux, if_neg (not_lt.mpr h)]

theorem removeOverlapsAux_step (last cur : ℚ × ℚ) (rest : List (ℚ × ℚ)) :
    (∃ e : ℚ × ℚ, e.2 = cur.2 ∧
      removeOverlapsAux last (cur :: rest) = e :: removeOverlapsAux e rest) ∨
    removeOverlapsAux last (cur :: rest) = removeOverlapsAux last rest := by
  by_cases h1 : cur.1 < last.2
  · by_cases h2 : cur.1 < last.2 - 10
    · right
      simp only [removeOverlapsAux, if_pos h1, if_pos h2]
    · by_cases h3 : 20 ≤ cur.2 - (last.2 + 1)
      · refine Or.inl ⟨(last.2 + 1, cur.2), rfl, ?_⟩
        simp only [removeOverlapsAux, if_pos h1, if_neg h2, if_pos h3]
      · right
        simp only [removeOverlapsAux, if_pos h1, if_neg h2, if_neg h3]
  · exact Or.inl ⟨cur, rfl, by simp only [removeOverlapsAux, if_neg h1]⟩

theorem removeOverlapsAux_two_of_four (last a b c d : ℚ × ℚ)
    (hlb : last.2 ≤ b.1) (hac : a.2 ≤ c.1) (hbd : b.2 ≤ d.1) :
    2 ≤ (removeOverlapsAux last [a, b, c, d]).length := by
  rcases removeOverlapsAux_step last a [b, c, d] with ⟨e, he2, heq⟩ | heq
  · rw [heq]
    rcases removeOverlapsAux_step e b [c, d] with ⟨f, _, hfeq⟩ | hfeq
    · rw [hfeq]
      simp only [List.length_cons]
      omega
    · rw [hfeq, removeOverlapsAux_accept e c [d] (by rw [he2]; exact hac)]
      simp only [List.length_cons]
      omega
  · rw [heq, removeOverlapsAux_accept last b [c, d] hlb]
    rcases removeOverlapsAux_step b c [d] with ⟨f, _, hfeq⟩ | hfeq
    · rw [hfeq]
      simp only [List.length_cons]
      omega
    · rw [hfeq, removeOverlapsAux_accept b d [] hbd]
      simp only [List.length_cons]
      omega

theorem segs600_le (off : ℕ → ℚ) (ds : ℕ → ℕ) :
    (generate_strategic_segments 600 off ds).length ≤ 6 := by
  rw [gen600_eq]
  refine le_trans (remove_overlaps_length _) ?_
  rw [(List.perm_insertionSort segLE _).length_eq]
  refine le_trans (List.length_filterMap_le _ _) ?_
  simp

theorem segs600_ge (off : ℕ → ℚ) (ds : ℕ → ℕ)
    (hoff : ∀ i < 6, -20 ≤ off i ∧ off i ≤ 20) :
    4 ≤ (generate_strategic_segments 600 off ds).length := by
  have h01 : (seg600 off ds 0).2 ≤ (seg600 off ds 1).1 := by
    have hub := seg600_end_ub off ds 0 (hoff 0 (by norm_num)).2
    have hlb := seg600_start_lb off ds 1 (hoff 1 (by norm_num)).1
    have hcr : (((clip_range 6 0).2 : ℤ) : ℚ) = 60 := by norm_num [clip_range]
    rw [hcr] at hub
    push_cast at hub hlb
    linarith
  have h13 : (seg600 off ds 1).2 ≤ (seg600 off ds 3).1 :=
    seg600_sep off ds 1 3 (by norm_num) (hoff 1 (by norm_num)).2 (hoff 3 (by norm_num)).1
  have h24 : (seg600 off ds 2).2 ≤ (seg600 off ds 4).1 :=
    seg600_sep off ds 2 4 (by norm_num) (hoff 2 (by norm_num)).2 (hoff 4 (by norm_num)).1
  have h35 : (seg600 off ds 3).2 ≤ (seg600 off ds 5).1 :=
    seg600_sep off ds 3 5 (by norm_num) (hoff 3 (by norm_num)).2 (hoff 5 (by norm_num)).1
  rw [gen600_eq, cands600_eq off ds hoff,
    List.Sorted.insertionSort_eq (cands600_sorted off ds hoff)]
  show 4 ≤ (seg600 off ds 0 :: removeOverlapsAux (seg600 off ds 0)
    [seg600 off ds 1, seg600 off ds 2, seg600 off ds 3, seg600 off ds 4,
      seg600 off ds 5]).length
  rw [removeOverlapsAux_accept _ _ _ h01]
  have h2of4 := removeOverlapsAux_two_of_four (seg600 off ds 1) (seg600 off ds 2)
    (seg600 off ds 3) (seg600 off ds 4) (seg600 off ds 5) h13 h24 h35
  simp only [List.length_cons]
  omega

/-- C7 (amended): at duration 600 with no external backend and in-range draws
the pipeline returns between 4 and 6 descriptors (6 is the computed target;
overlap resolution can drop at most two candidates, never adjacent ones, so
the count can fall to 4 but no lower), ordered ascending by start time, each
with a content type in the heuristic enumeration and a virality score within
[30, 99]. -/
theorem C7_end_to_end_600 (parse : String → Option ORAnalysis)
    (resps : ℕ → ORResponse) (off : ℕ → ℚ) (ds : ℕ → ℕ) (fb : ℕ → FallbackDraws)
    (hoff : ∀ i < 6, -20 ≤ off i ∧ off i ≤ 20) :
    4 ≤ (generate_intelligent_clips false parse resps 600 off ds fb).length ∧
    (generate_intelligent_clips false parse resps 600 off ds fb).length ≤ 6 ∧
    (generate_intelligent_clips false parse resps 600 off ds fb).Pairwise
      (fun a b => a.start_time ≤ b.start_time) ∧
    ∀ x ∈ generate_intelligent_clips false parse resps 600 off ds fb,
      x.content_type ∈ content_types ∧ 30 ≤ x.virality_score ∧ x.virality_score ≤ 99 := by
  have hlen : (generate_intelligent_clips false parse resps 600 off ds fb).length
      = (generate_strategic_segments 600 off ds).length := by
    unfold generate_intelligent_clips
    rw [scoreAll_length]
  obtain ⟨hg, hp⟩ := generate_strategic_segments_spec 600 off ds
  refine ⟨?_, ?_, ?_, ?_⟩
  · rw [hlen]
    exact segs600_ge off ds hoff
  · rw [hlen]
    exact segs600_le off ds
  · have hms : (generate_intelligent_clips false parse resps 600 off ds fb).map
        ClipDescriptor.start_time = (generate_strategic_segments 600 off ds).map Prod.fst := by
      unfold generate_intelligent_clips
      rw [scoreAll_map_start]
    have hpw : (generate_strategic_segments 600 off ds).Pairwise (fun a b => a.1 ≤ b.1) :=
      pairwise_start_of_sep _ (fun x hx => by have := (hg x hx).2.1; linarith) hp
    have hmappw : ((generate_strategic_segments 600 off ds).map Prod.fst).Pairwise
        (· ≤ ·) := List.pairwise_map.mpr hpw
    rw [← hms] at hmappw
    exact List.pairwise_map.mp hmappw
  · intro x hx
    have hx2 : x ∈ scoreAll false parse resps fb 600 0
        (generate_strategic_segments 600 off ds) := hx
    obtain ⟨j, s, _, rfl⟩ := scoreAll_mem false parse resps fb 600 0 _ x hx2
    have hfb : analyze_segment false parse (resps j) (mkCtx s 600 (j + 1)) (fb j)
        = enhanced_fallback_analysis (mkCtx s 600 (j + 1)) (fb j) := rfl
    rw [hfb]
    obtain ⟨hv1, hv2⟩ := fallback_virality (mkCtx s 600 (j + 1)) (fb j)
    refine ⟨?_, by linarith, hv2⟩
    rw [fallback_content_type]
    exact pychoice_mem content_types (by decide) _

/-- Witness for C7 at all-zero offsets. -/
theorem C7_end_to_end_600_witness :
    (∀ i < 6, (-20 : ℚ) ≤ (fun _ : ℕ => (0 : ℚ)) i ∧ (fun _ : ℕ => (0 : ℚ)) i ≤ 20) ∧
    (4 ≤ (generate_intelligent_clips false (fun _ => none) (fun _ => ⟨0, ⟨"", ""⟩⟩) 600
        (fun _ => 0) (fun _ => 0) (fun _ => draws0)).length ∧
      (generate_intelligent_clips false (fun _ => none) (fun _ => ⟨0, ⟨"", ""⟩⟩) 600
        (fun _ => 0) (fun _ => 0) (fun _ => draws0)).length ≤ 6 ∧
      (generate_intelligent_clips false (fun _ => none) (fun _ => ⟨0, ⟨"", ""⟩⟩) 600
        (fun _ => 0) (fun _ => 0) (fun _ => draws0)).Pairwise
          (fun a b => a.start_time ≤ b.start_time) ∧
      ∀ x ∈ generate_intelligent_clips false (fun _ => none) (fun _ => ⟨0, ⟨"", ""⟩⟩) 600
          (fun _ => 0) (fun _ => 0) (fun _ => draws0),
        x.content_type ∈ content_types ∧ 30 ≤ x.virality_score ∧ x.virality_score ≤ 99) :=
  ⟨fun _ _ => ⟨by norm_num, by norm_num⟩,
   C7_end_to_end_600 (fun _ => none) (fun _ => ⟨0, ⟨"", ""⟩⟩)
     (fun _ => 0) (fun _ => 0) (fun _ => draws0) (fun _ _ => ⟨by norm_num, by norm_num⟩)⟩
